import Mathlib

/-!
Shallow embedding of the silver-ledger engine of `bot.py` (ChocoMagi/AOE).

The SQLite database is modelled as a `DB` state: the `accounts` and
`treasury` tables are partial maps keyed by their primary keys, and the
three append-only log tables are lists kept in rowid (insertion) order
together with explicit AUTOINCREMENT counters.  Each `Database` method of
`bot.py` becomes a state-passing function; methods that return a success
flag become `Bool × DB`.  A method whose SQLite transaction rolls back
returns the original state.  The relevant slash-command handlers (the
callers that add validation and audit logging around the `Database`
methods) are embedded as well.
-/

/-- Row of the `transfer_logs` table. -/
structure TransferLog where
  id : Int
  guild_id : Int
  sender_id : Int
  receiver_id : Int
  amount : Int
  created_at : String
deriving DecidableEq

/-- Row of the `treasury_logs` table. -/
structure TreasuryLog where
  id : Int
  guild_id : Int
  initiator_id : Int
  action : String
  amount : Int
  recipient_id : Option Int
  created_at : String
deriving DecidableEq

/-- Row of the `lootsplit_logs` table. -/
structure LootsplitLog where
  id : Int
  guild_id : Int
  initiator_id : Int
  lootsplit_name : Option String
  total : Int
  tax_percent : Int
  tax_amount : Int
  remaining : Int
  share : Int
  recipient_count : Int
  recipient_ids : String
  created_at : String
deriving DecidableEq

/-- The database state: `accounts` keyed by (guild_id, user_id),
`treasury` keyed by guild_id, the log tables in insertion order, and the
AUTOINCREMENT counters of the three log tables (SQLite starts them at 1).
`lootsplit_recipients` rows are (lootsplit_id, recipient_id) pairs. -/
structure DB where
  accounts : Int × Int → Option Int
  treasury : Int → Option Int
  transfer_logs : List TransferLog
  treasury_logs : List TreasuryLog
  lootsplit_logs : List LootsplitLog
  lootsplit_recipients : List (Int × Int)
  next_transfer_id : Int
  next_treasury_log_id : Int
  next_lootsplit_id : Int

/-- A freshly initialised database: `init_schema` creates empty tables. -/
def dbEmpty : DB :=
  { accounts := fun _ => none
    treasury := fun _ => none
    transfer_logs := []
    treasury_logs := []
    lootsplit_logs := []
    lootsplit_recipients := []
    next_transfer_id := 1
    next_treasury_log_id := 1
    next_lootsplit_id := 1 }

/-- `Database._get_wallet` (and `get_balance`): SELECT wallet for the
(guild, user) key, returning 0 when the row is absent. -/
def get_wallet (db : DB) (g u : Int) : Int :=
  (db.accounts (g, u)).getD 0

/-- `Database._ensure_account` / `Database.ensure_account`:
INSERT OR IGNORE a (guild, user, 0) row. -/
def ensure_account (db : DB) (g u : Int) : DB :=
  match db.accounts (g, u) with
  | some _ => db
  | none =>
      { db with accounts := fun k => if k = (g, u) then some 0 else db.accounts k }

/-- `Database._ensure_treasury`: INSERT OR IGNORE a (guild, 0) row. -/
def ensure_treasury (db : DB) (g : Int) : DB :=
  match db.treasury g with
  | some _ => db
  | none =>
      { db with treasury := fun k => if k = g then some 0 else db.treasury k }

/-- UPDATE accounts SET wallet = f(wallet) WHERE guild_id = g AND
user_id = u; a no-op when the row is absent (UPDATE matches no row). -/
def update_wallet (db : DB) (g u : Int) (f : Int → Int) : DB :=
  match db.accounts (g, u) with
  | some w =>
      { db with accounts := fun k => if k = (g, u) then some (f w) else db.accounts k }
  | none => db

/-- UPDATE treasury SET balance = f(balance) WHERE guild_id = g; a no-op
when the row is absent. -/
def update_treasury (db : DB) (g : Int) (f : Int → Int) : DB :=
  match db.treasury g with
  | some b =>
      { db with treasury := fun k => if k = g then some (f b) else db.treasury k }
  | none => db

/-- `Database.get_balance`. -/
def get_balance (db : DB) (g u : Int) : Int := get_wallet db g u

/-- `Database.get_treasury`: SELECT balance, 0 when the row is absent. -/
def get_treasury (db : DB) (g : Int) : Int :=
  (db.treasury g).getD 0

/-- `Database.add_treasury`: INSERT (guild, amount) ON CONFLICT DO UPDATE
SET balance = balance + excluded.balance.  Unconditional upsert, no
return value and no negativity check. -/
def add_treasury (db : DB) (g amount : Int) : DB :=
  match db.treasury g with
  | some b =>
      { db with treasury := fun k => if k = g then some (b + amount) else db.treasury k }
  | none =>
      { db with treasury := fun k => if k = g then some amount else db.treasury k }

/-- `Database.deduct_treasury`: inside one transaction, ensure the row,
read the balance, roll back returning False when `current < amount`,
otherwise UPDATE balance = balance - amount and commit. -/
def deduct_treasury (db : DB) (g amount : Int) : Bool × DB :=
  let db1 := ensure_treasury db g
  let current := get_treasury db1 g
  if current < amount then (false, db)
  else (true, update_treasury db1 g (fun b => b - amount))

/-- `Database.transfer_treasury_to_user`: inside one transaction, ensure
the treasury row and the account row, read the treasury balance, roll
back returning False when `current < amount`, otherwise debit the
treasury and credit the account. -/
def transfer_treasury_to_user (db : DB) (g u amount : Int) : Bool × DB :=
  let db1 := ensure_treasury db g
  let db2 := ensure_account db1 g u
  let current := get_treasury db2 g
  if current < amount then (false, db)
  else
    (true, update_wallet (update_treasury db2 g (fun b => b - amount)) g u
      (fun w => w + amount))

/-- `Database.add_balance`: read the wallet (0 when absent), refuse with
False when `current + amount < 0`, otherwise UPDATE wallet to the new
value.  The UPDATE silently matches no row when the account is absent. -/
def add_balance (db : DB) (g u amount : Int) : Bool × DB :=
  let current := get_wallet db g u
  let new_balance := current + amount
  if new_balance < 0 then (false, db)
  else (true, update_wallet db g u (fun _ => new_balance))

/-- `Database.transfer_balance`: inside one transaction, ensure both
account rows, read the sender's wallet, roll back returning False when
`current < amount`, otherwise debit the sender, credit the receiver and
commit. -/
def transfer_balance (db : DB) (g sender receiver amount : Int) : Bool × DB :=
  let db1 := ensure_account db g sender
  let db2 := ensure_account db1 g receiver
  let current := get_wallet db2 g sender
  if current < amount then (false, db)
  else
    let db3 := update_wallet db2 g sender (fun w => w - amount)
    let db4 := update_wallet db3 g receiver (fun w => w + amount)
    (true, db4)

/-- `Database.deduct_balance`: inside one transaction, ensure the account
row, read the wallet, roll back returning False when `current < amount`,
otherwise debit and commit. -/
def deduct_balance (db : DB) (g u amount : Int) : Bool × DB :=
  let db1 := ensure_account db g u
  let current := get_wallet db1 g u
  if current < amount then (false, db)
  else (true, update_wallet db1 g u (fun w => w - amount))

/-- `Database.log_transfer`: append one transfer_logs row; the rowid is
the next AUTOINCREMENT value.  `now` stands for CURRENT_TIMESTAMP. -/
def log_transfer (db : DB) (g sender receiver amount : Int) (now : String) : DB :=
  { db with
    transfer_logs :=
      db.transfer_logs ++ [⟨db.next_transfer_id, g, sender, receiver, amount, now⟩]
    next_transfer_id := db.next_transfer_id + 1 }

/-- `Database.log_treasury`: append one treasury_logs row. -/
def log_treasury (db : DB) (g initiator : Int) (action : String) (amount : Int)
    (recipient : Option Int) (now : String) : DB :=
  { db with
    treasury_logs :=
      db.treasury_logs ++
        [⟨db.next_treasury_log_id, g, initiator, action, amount, recipient, now⟩]
    next_treasury_log_id := db.next_treasury_log_id + 1 }

/-- Python `[(lid, int(uid)) for uid in s.split(",") if uid]`: split on
commas, drop empty pieces, convert each to an integer.  The conversion is
only reached on the numeric comma-joined strings the bot itself builds;
`int()` raising on a malformed piece is outside the modelled behaviour,
so non-numeric pieces are dropped. -/
def parse_recipient_ids (s : String) : List Int :=
  ((s.splitOn ",").filter (fun part => part ≠ "")).filterMap String.toInt?

/-- INSERT OR IGNORE of membership rows: each (lid, rid) pair is appended
unless the primary key already exists. -/
def insert_recipients (lid : Int) (ids : List Int)
    (rows : List (Int × Int)) : List (Int × Int) :=
  ids.foldl (fun acc rid => if (lid, rid) ∈ acc then acc else acc ++ [(lid, rid)]) rows

/-- `Database.log_lootsplit`: insert the lootsplit_logs row, then, when
the comma-joined id string is non-empty, insert one
lootsplit_recipients row per parsed id (INSERT OR IGNORE). -/
def log_lootsplit (db : DB) (g initiator : Int) (name : Option String)
    (total tax_percent tax_amount remaining share recipient_count : Int)
    (recipient_ids : String) (now : String) : DB :=
  let lid := db.next_lootsplit_id
  let db1 :=
    { db with
      lootsplit_logs :=
        db.lootsplit_logs ++
          [⟨lid, g, initiator, name, total, tax_percent, tax_amount, remaining,
            share, recipient_count, recipient_ids, now⟩]
      next_lootsplit_id := lid + 1 }
  if recipient_ids ≠ "" then
    { db1 with
      lootsplit_recipients :=
        insert_recipients lid (parse_recipient_ids recipient_ids)
          db1.lootsplit_recipients }
  else db1

/-- Insertion of one element into a list sorted by a descending integer
key; used to express the ORDER BY id DESC of the history queries. -/
def ins_desc {α : Type} (key : α → Int) (x : α) : List α → List α
  | [] => [x]
  | y :: ys => if key y ≤ key x then x :: y :: ys else y :: ins_desc key x ys

/-- ORDER BY key DESC over a list of rows. -/
def sort_desc {α : Type} (key : α → Int) (l : List α) : List α :=
  l.foldr (ins_desc key) []

/-- `Database.get_transfer_history` before column projection:
WHERE guild_id = g ORDER BY id DESC LIMIT limit OFFSET offset. -/
def get_transfer_history_rows (db : DB) (g : Int) (limit offset : Nat) :
    List TransferLog :=
  ((sort_desc (fun t => t.id)
      (db.transfer_logs.filter (fun t => t.guild_id == g))).drop offset).take limit

/-- `Database.get_transfer_history`: SELECT sender_id, receiver_id,
amount, created_at. -/
def get_transfer_history (db : DB) (g : Int) (limit offset : Nat) :
    List (Int × Int × Int × String) :=
  (get_transfer_history_rows db g limit offset).map
    (fun t => (t.sender_id, t.receiver_id, t.amount, t.created_at))

/-- `Database.get_treasury_history` before column projection: the
limit-less variant returns every matching row ORDER BY id DESC. -/
def get_treasury_history_rows (db : DB) (g : Int) (limit : Option Nat)
    (offset : Nat) : List TreasuryLog :=
  let rows := sort_desc (fun t => t.id)
    (db.treasury_logs.filter (fun t => t.guild_id == g))
  match limit with
  | none => rows
  | some l => (rows.drop offset).take l

/-- `Database.get_treasury_history`: SELECT initiator_id, action, amount,
recipient_id, created_at. -/
def get_treasury_history (db : DB) (g : Int) (limit : Option Nat) (offset : Nat) :
    List (Int × String × Int × Option Int × String) :=
  (get_treasury_history_rows db g limit offset).map
    (fun t => (t.initiator_id, t.action, t.amount, t.recipient_id, t.created_at))

/-- COALESCE(GROUP_CONCAT(r.recipient_id), l.recipient_ids) of the LEFT
JOIN in `get_lootsplit_history`: when at least one membership row matches
the log row's id, the comma-joined membership ids (in table order);
otherwise the stored string. -/
def lootsplit_row_recipient_ids (db : DB) (l : LootsplitLog) : String :=
  let ms := (db.lootsplit_recipients.filter (fun p => p.fst == l.id)).map Prod.snd
  if ms.isEmpty then l.recipient_ids
  else String.intercalate "," (ms.map toString)

/-- `Database.get_lootsplit_history` before column projection:
WHERE guild_id = g GROUP BY l.id ORDER BY l.id DESC LIMIT/OFFSET. -/
def get_lootsplit_history_rows (db : DB) (g : Int) (limit offset : Nat) :
    List LootsplitLog :=
  ((sort_desc (fun l => l.id)
      (db.lootsplit_logs.filter (fun l => l.guild_id == g))).drop offset).take limit

/-- Result row of `Database.get_lootsplit_history`: SELECT initiator_id,
lootsplit_name, total, tax_percent, share,
COALESCE(GROUP_CONCAT(recipient_id), recipient_ids), created_at. -/
structure LootsplitHistoryRow where
  initiator_id : Int
  lootsplit_name : Option String
  total : Int
  tax_percent : Int
  share : Int
  recipient_ids : String
  created_at : String
deriving DecidableEq

/-- `Database.get_lootsplit_history`: the projected, grouped rows. -/
def get_lootsplit_history (db : DB) (g : Int) (limit offset : Nat) :
    List LootsplitHistoryRow :=
  (get_lootsplit_history_rows db g limit offset).map
    (fun l => ⟨l.initiator_id, l.lootsplit_name, l.total, l.tax_percent, l.share,
      lootsplit_row_recipient_ids db l, l.created_at⟩)

/-- Outcome of the `/transfer` command handler. -/
inductive TransferResult
  | invalidAmount
  | selfTransfer
  | insufficientFunds
  | success
deriving DecidableEq

/-- Outcome of the `/take_silver` and `/give_silver` command handlers. -/
inductive DeductResult
  | invalidAmount
  | insufficientFunds
  | success
deriving DecidableEq

/-- The `/transfer` command handler: rejects `amount <= 0`
("Amount must be positive"), then a self-payment ("You can't pay
yourself"), then calls `transfer_balance`; on success it calls
`log_transfer` on a separate connection. -/
def transfer_command (db : DB) (g sender receiver amount : Int) (now : String) :
    TransferResult × DB :=
  if amount ≤ 0 then (.invalidAmount, db)
  else if receiver = sender then (.selfTransfer, db)
  else
    match transfer_balance db g sender receiver amount with
    | (false, db1) => (.insufficientFunds, db1)
    | (true, db1) => (.success, log_transfer db1 g sender receiver amount now)

/-- The `/take_silver` command handler: rejects `amount <= 0`, then calls
`deduct_balance`; it writes no audit log in either case. -/
def take_silver_command (db : DB) (g member amount : Int) : DeductResult × DB :=
  if amount ≤ 0 then (.invalidAmount, db)
  else
    match deduct_balance db g member amount with
    | (false, db1) => (.insufficientFunds, db1)
    | (true, db1) => (.success, db1)

/-- The `/give_silver` command handler: rejects `amount <= 0`, then
`ensure_account` followed by `add_balance` (its Bool is ignored); it
writes no audit log. -/
def give_silver_command (db : DB) (g member amount : Int) : DeductResult × DB :=
  if amount ≤ 0 then (.invalidAmount, db)
  else (.success, (add_balance (ensure_account db g member) g member amount).2)

/-- The `/treasury_add` command handler: rejects `amount <= 0`, then
`add_treasury` followed by one `log_treasury(..., "add", amount)` row
(no recipient), written on a separate connection. -/
def treasury_add_command (db : DB) (g initiator amount : Int) (now : String) :
    DeductResult × DB :=
  if amount ≤ 0 then (.invalidAmount, db)
  else
    (.success,
      log_treasury (add_treasury db g amount) g initiator "add" amount none now)

/-- The `/treasury_take` command handler: rejects `amount <= 0`; with a
recipient it runs `transfer_treasury_to_user` and on success logs one
"transfer" row carrying the recipient id; without one it runs
`deduct_treasury` and on success logs one "take" row; a failed checked
call logs nothing. -/
def treasury_take_command (db : DB) (g initiator amount : Int)
    (member : Option Int) (now : String) : DeductResult × DB :=
  if amount ≤ 0 then (.invalidAmount, db)
  else
    match member with
    | some m =>
        match transfer_treasury_to_user db g m amount with
        | (false, db1) => (.insufficientFunds, db1)
        | (true, db1) =>
            (.success, log_treasury db1 g initiator "transfer" amount (some m) now)
    | none =>
        match deduct_treasury db g amount with
        | (false, db1) => (.insufficientFunds, db1)
        | (true, db1) =>
            (.success, log_treasury db1 g initiator "take" amount none now)

/-- Result of the split computation inlined in the `/lootsplit` handler. -/
inductive SplitResult
  | feeExceedsTotal
  | splitTooSmall
  | ok (tax_amount remaining share : Int)
deriving DecidableEq

/-- The split computation inlined in the `/lootsplit` handler
(bot.py lines 928-937).  Python `//` is floor division, `Int.fdiv`. -/
def computeSplit (total repair tax recipient_count : Int) : SplitResult :=
  let after_repair := total - repair
  if after_repair ≤ 0 then .feeExceedsTotal
  else
    let tax_amount := (after_repair * tax).fdiv 100
    let remaining := after_repair - tax_amount
    let share := remaining.fdiv recipient_count
    if share ≤ 0 then .splitTooSmall
    else .ok tax_amount remaining share

/-- `computeSplit` exactly as §4.4 of the spec words it: afterFee =
total - flatFee (FeeExceedsTotal unless > 0), taxAmount =
floor(afterFee * taxPercent / 100), remaining = afterFee - taxAmount,
share = floor(remaining / recipientCount) (SplitTooSmall unless > 0). -/
def computeSplitSpec (total flatFee taxPercent recipientCount : Int) : SplitResult :=
  let afterFee := total - flatFee
  if afterFee ≤ 0 then .feeExceedsTotal
  else
    let taxAmount := (afterFee * taxPercent).fdiv 100
    let remaining := afterFee - taxAmount
    let share := remaining.fdiv recipientCount
    if share ≤ 0 then .splitTooSmall
    else .ok taxAmount remaining share

/-- The per-recipient loop of `LootsplitConfirmView.confirm`:
`db.ensure_account(...)` then `db.add_balance(..., share)` for each
recipient in order (the returned Bool is discarded). -/
def credit_shares (g share : Int) (recipients : List Int) (db : DB) : DB :=
  recipients.foldl (fun d m => (add_balance (ensure_account d g m) g m share).2) db

/-- The applied path of `LootsplitConfirmView.confirm` (first confirm,
`applied` still False): for each recipient in order, `ensure_account`
then `add_balance(share)` (its Bool is ignored); then `add_treasury`
when `tax_amount > 0`; then `log_lootsplit` with the comma-joined
recipient ids and `len(recipients)`. -/
def lootsplit_confirm (db : DB) (g initiator : Int) (name : Option String)
    (total tax tax_amount remaining share : Int) (recipients : List Int)
    (now : String) : DB :=
  let recipient_ids := String.intercalate "," (recipients.map toString)
  let db1 := credit_shares g share recipients db
  let db2 := if tax_amount > 0 then add_treasury db1 g tax_amount else db1
  log_lootsplit db2 g initiator name total tax tax_amount remaining share
    recipients.length recipient_ids now

/-- Concrete state for witnesses: guild 0, user 1 holds 10 silver. -/
def dbTen : DB := (add_balance (ensure_account dbEmpty 0 1) 0 1 10).2

/-- Two states that agree on everything except the `accounts` table; the
account mutations only ever touch that table. -/
def SameExceptAccounts (db1 db2 : DB) : Prop :=
  db1.treasury = db2.treasury ∧
  db1.transfer_logs = db2.transfer_logs ∧
  db1.treasury_logs = db2.treasury_logs ∧
  db1.lootsplit_logs = db2.lootsplit_logs ∧
  db1.lootsplit_recipients = db2.lootsplit_recipients ∧
  db1.next_transfer_id = db2.next_transfer_id ∧
  db1.next_treasury_log_id = db2.next_treasury_log_id ∧
  db1.next_lootsplit_id = db2.next_lootsplit_id

/-- Two states that agree on all audit state: the three log tables, the
membership rows and the three AUTOINCREMENT counters; the balance
mutations leave all of it untouched. -/
def LogsUnchanged (db1 db2 : DB) : Prop :=
  db1.transfer_logs = db2.transfer_logs ∧
  db1.treasury_logs = db2.treasury_logs ∧
  db1.lootsplit_logs = db2.lootsplit_logs ∧
  db1.lootsplit_recipients = db2.lootsplit_recipients ∧
  db1.next_transfer_id = db2.next_transfer_id ∧
  db1.next_treasury_log_id = db2.next_treasury_log_id ∧
  db1.next_lootsplit_id = db2.next_lootsplit_id

/-- Every stored wallet is non-negative. -/
def AccountsNonneg (db : DB) : Prop :=
  ∀ k w, db.accounts k = some w → 0 ≤ w

/-- Every stored treasury balance is non-negative. -/
def TreasuryNonneg (db : DB) : Prop :=
  ∀ g b, db.treasury g = some b → 0 ≤ b

/-- Fifteen transfer records inserted for guild 0, all with the same
timestamp; the i-th insertion carries amount i+1 and receives rowid i+1. -/
def db15 : DB :=
  (List.range 15).foldl (fun d i => log_transfer d 0 1 2 ((i : Int) + 1) "T") dbEmpty

/-- Non-negative witness state written as a literal: user (0, 1) holds 10. -/
def dbW : DB :=
  { dbEmpty with accounts := fun k => if k = (0, 1) then some 10 else none }

/-- Witness state whose guild-0 treasury holds 50 silver. -/
def dbTreas : DB := add_treasury dbEmpty 0 50

/-- A lootsplit log row whose stored comma-joined string ("legacy") does
not match its membership rows; used to show the membership relation wins. -/
def lsMismatch : LootsplitLog :=
  ⟨1, 0, 9, none, 100, 10, 10, 90, 45, 2, "legacy", "T"⟩

/-- State holding `lsMismatch` together with membership rows (1,3), (1,4). -/
def dbMismatch : DB :=
  { dbEmpty with
    lootsplit_logs := [lsMismatch]
    lootsplit_recipients := [(1, 3), (1, 4)]
    next_lootsplit_id := 2 }

/-- A legacy state: one lootsplit log row, no membership rows at all. -/
def dbLegacy : DB :=
  { dbEmpty with
    lootsplit_logs := [⟨1, 0, 9, none, 100, 10, 10, 90, 45, 2, "1,2", "T"⟩]
    next_lootsplit_id := 2 }

/-! ### Helper lemmas about the repository primitives -/

theorem ensure_account_of_some (db : DB) (g u w : Int)
    (h : db.accounts (g, u) = some w) : ensure_account db g u = db := by
  simp [ensure_account, h]

theorem ensure_account_some (db : DB) (g u : Int) :
    (ensure_account db g u).accounts (g, u) = some (get_wallet db g u) := by
  unfold ensure_account get_wallet
  cases h : db.accounts (g, u) <;> simp [h]

theorem ensure_account_accounts_other (db : DB) (g u : Int) (k : Int × Int)
    (hk : k ≠ (g, u)) : (ensure_account db g u).accounts k = db.accounts k := by
  unfold ensure_account
  cases h : db.accounts (g, u) <;> simp [h, hk]

theorem get_wallet_ensure_self (db : DB) (g u : Int) :
    get_wallet (ensure_account db g u) g u = get_wallet db g u := by
  unfold ensure_account get_wallet
  cases h : db.accounts (g, u) <;> simp [h]

theorem get_wallet_ensure_other (db : DB) (g u : Int) (g' u' : Int)
    (hk : (g', u') ≠ (g, u)) :
    get_wallet (ensure_account db g u) g' u' = get_wallet db g' u' := by
  unfold get_wallet
  rw [ensure_account_accounts_other db g u (g', u') hk]

theorem update_wallet_accounts_self (db : DB) (g u : Int) (f : Int → Int) (w : Int)
    (h : db.accounts (g, u) = some w) :
    (update_wallet db g u f).accounts (g, u) = some (f w) := by
  simp [update_wallet, h]

theorem update_wallet_accounts_other (db : DB) (g u : Int) (f : Int → Int)
    (k : Int × Int) (hk : k ≠ (g, u)) :
    (update_wallet db g u f).accounts k = db.accounts k := by
  unfold update_wallet
  cases h : db.accounts (g, u) <;> simp [h, hk]

/-! ### C9 -/

/-- C9: `ensure_account` is idempotent — a second call returns the state
unchanged, and any call leaves the observed wallet balance unchanged
(0 when the account was just created, the stored value otherwise). -/
theorem C9_ensure_account_idempotent (db : DB) (g u : Int) :
    ensure_account (ensure_account db g u) g u = ensure_account db g u ∧
    get_balance (ensure_account db g u) g u = get_balance db g u := by
  constructor
  · exact ensure_account_of_some _ g u (get_wallet db g u)
      (ensure_account_some db g u)
  · exact get_wallet_ensure_self db g u

/-! ### C10 -/

/-- C10: when no account row exists, `add_balance` with a non-negative
amount reports success yet changes nothing (the UPDATE matches no row),
a subsequent `get_balance` still returns 0, and the credit takes effect
once `ensure_account` is called first. -/
theorem C10_add_balance_without_account (db : DB) (g u a : Int)
    (hnone : db.accounts (g, u) = none) (ha : 0 ≤ a) :
    add_balance db g u a = (true, db) ∧
    get_balance db g u = 0 ∧
    get_balance (add_balance (ensure_account db g u) g u a).2 g u = a := by
  have h0 : get_wallet db g u = 0 := by simp [get_wallet, hnone]
  have hnotlt : ¬ (a < 0) := by omega
  refine ⟨?_, h0, ?_⟩
  · simp [add_balance, update_wallet, h0, hnone, hnotlt]
  · have he : (ensure_account db g u).accounts (g, u) = some 0 := by
      simp [ensure_account, hnone]
    have he' : get_wallet (ensure_account db g u) g u = 0 := by
      simp [get_wallet, he]
    simp only [add_balance, get_balance, get_wallet, update_wallet, he, he']
    simp [hnotlt]

/-- Witness for C10 at the empty database, user (0, 1), amount 5. -/
theorem C10_witness :
    dbEmpty.accounts (0, 1) = none ∧ (0 : Int) ≤ 5 ∧
    add_balance dbEmpty 0 1 5 = (true, dbEmpty) ∧
    get_balance dbEmpty 0 1 = 0 ∧
    get_balance (add_balance (ensure_account dbEmpty 0 1) 0 1 5).2 0 1 = 5 := by
  have h := C10_add_balance_without_account dbEmpty 0 1 5 rfl (by decide)
  exact ⟨rfl, by decide, h.1, h.2.1, h.2.2⟩

/-! ### C5 -/

/-- C5: the split computation of the `/lootsplit` handler is exactly the
pure function of §4.4 of the spec, and in particular
computeSplit(1000, 100, 10, 3) = ok (90, 810, 270) while
computeSplit(50, 60, 0, 2) = FeeExceedsTotal. -/
theorem C5_computeSplit_spec :
    (∀ total repair tax n : Int,
        computeSplit total repair tax n = computeSplitSpec total repair tax n) ∧
    computeSplit 1000 100 10 3 = .ok 90 810 270 ∧
    computeSplit 50 60 0 2 = .feeExceedsTotal :=
  ⟨fun _ _ _ _ => rfl, by decide, by decide⟩

/-! ### C1 -/

/-- C1: for distinct accounts with non-negative wallets and an amount
0 < a ≤ wallet(sender), `transfer_balance` succeeds, debits the sender by
exactly a, credits the receiver by exactly a, and conserves the sum of
the two wallets; both writes happen in the one transaction the function
models. -/
theorem C1_transfer_balance_moves_amount (db : DB) (g s r a : Int)
    (hne : s ≠ r) (hs : 0 ≤ get_wallet db g s) (hr : 0 ≤ get_wallet db g r)
    (hpos : 0 < a) (hle : a ≤ get_wallet db g s) :
    (transfer_balance db g s r a).1 = true ∧
    get_wallet (transfer_balance db g s r a).2 g s = get_wallet db g s - a ∧
    get_wallet (transfer_balance db g s r a).2 g r = get_wallet db g r + a ∧
    get_wallet (transfer_balance db g s r a).2 g s +
        get_wallet (transfer_balance db g s r a).2 g r =
      get_wallet db g s + get_wallet db g r := by
  have hkrs : ((g, r) : Int × Int) ≠ (g, s) := fun h =>
    hne ((congrArg Prod.snd h).symm)
  have hksr : ((g, s) : Int × Int) ≠ (g, r) := fun h =>
    hne (congrArg Prod.snd h)
  have h2s : (ensure_account (ensure_account db g s) g r).accounts (g, s) =
      some (get_wallet db g s) := by
    rw [ensure_account_accounts_other _ g r (g, s) hksr, ensure_account_some]
  have h2r : (ensure_account (ensure_account db g s) g r).accounts (g, r) =
      some (get_wallet db g r) := by
    rw [ensure_account_some, get_wallet_ensure_other db g s g r hkrs]
  have hcur : get_wallet (ensure_account (ensure_account db g s) g r) g s =
      get_wallet db g s := by
    simp [get_wallet, h2s]
  have hnotlt : ¬ (get_wallet (ensure_account (ensure_account db g s) g r) g s < a) := by
    rw [hcur]; omega
  have h3s : (update_wallet (ensure_account (ensure_account db g s) g r) g s
      (fun w => w - a)).accounts (g, s) = some (get_wallet db g s - a) :=
    update_wallet_accounts_self _ g s _ _ h2s
  have h3r : (update_wallet (ensure_account (ensure_account db g s) g r) g s
      (fun w => w - a)).accounts (g, r) = some (get_wallet db g r) := by
    rw [update_wallet_accounts_other _ g s _ (g, r) hkrs]; exact h2r
  have h4s : (update_wallet (update_wallet (ensure_account (ensure_account db g s) g r)
      g s (fun w => w - a)) g r (fun w => w + a)).accounts (g, s) =
      some (get_wallet db g s - a) := by
    rw [update_wallet_accounts_other _ g r _ (g, s) hksr]; exact h3s
  have h4r : (update_wallet (update_wallet (ensure_account (ensure_account db g s) g r)
      g s (fun w => w - a)) g r (fun w => w + a)).accounts (g, r) =
      some (get_wallet db g r + a) :=
    update_wallet_accounts_self _ g r _ _ h3r
  have hres : transfer_balance db g s r a =
      (true, update_wallet (update_wallet (ensure_account (ensure_account db g s) g r)
        g s (fun w => w - a)) g r (fun w => w + a)) := by
    simp only [transfer_balance]
    rw [if_neg hnotlt]
  rw [hres]
  refine ⟨rfl, ?_, ?_, ?_⟩
  · simp [get_wallet, h4s]
  · simp [get_wallet, h4r]
  · simp [get_wallet, h4s, h4r]

/-- Witness for C1: guild 0, sender 1 holding 10, receiver 2 holding 0,
amount 4. -/
theorem C1_witness :
    ((1 : Int) ≠ 2) ∧ (0 : Int) ≤ get_wallet dbTen 0 1 ∧
    (0 : Int) ≤ get_wallet dbTen 0 2 ∧ (0 : Int) < 4 ∧
    (4 : Int) ≤ get_wallet dbTen 0 1 ∧
    (transfer_balance dbTen 0 1 2 4).1 = true ∧
    get_wallet (transfer_balance dbTen 0 1 2 4).2 0 1 = 6 ∧
    get_wallet (transfer_balance dbTen 0 1 2 4).2 0 2 = 4 := by
  have h := C1_transfer_balance_moves_amount dbTen 0 1 2 4 (by decide)
    (by decide) (by decide) (by decide) (by decide)
  refine ⟨by decide, by decide, by decide, by decide, by decide, h.1, ?_, ?_⟩
  · rw [h.2.1]; decide
  · rw [h.2.2.1]; decide

/-! ### More helper lemmas -/

theorem get_wallet_ensure (db : DB) (g' u' g u : Int) :
    get_wallet (ensure_account db g' u') g u = get_wallet db g u := by
  unfold ensure_account get_wallet
  cases h : db.accounts (g', u') with
  | some w => simp [h]
  | none =>
      by_cases hk : ((g, u) : Int × Int) = (g', u')
      · simp [hk, h]
      · simp [hk]

theorem sea_refl (db : DB) : SameExceptAccounts db db := by
  unfold SameExceptAccounts; repeat constructor

theorem sea_trans (db1 db2 db3 : DB) (h12 : SameExceptAccounts db1 db2)
    (h23 : SameExceptAccounts db2 db3) : SameExceptAccounts db1 db3 := by
  obtain ⟨a1, a2, a3, a4, a5, a6, a7, a8⟩ := h12
  obtain ⟨b1, b2, b3, b4, b5, b6, b7, b8⟩ := h23
  exact ⟨a1.trans b1, a2.trans b2, a3.trans b3, a4.trans b4, a5.trans b5,
    a6.trans b6, a7.trans b7, a8.trans b8⟩

theorem ensure_account_sea (db : DB) (g u : Int) :
    SameExceptAccounts (ensure_account db g u) db := by
  unfold ensure_account
  cases h : db.accounts (g, u) <;> simp [SameExceptAccounts, h]

theorem update_wallet_sea (db : DB) (g u : Int) (f : Int → Int) :
    SameExceptAccounts (update_wallet db g u f) db := by
  unfold update_wallet
  cases h : db.accounts (g, u) <;> simp [SameExceptAccounts, h]

theorem add_balance_sea (db : DB) (g u a : Int) :
    SameExceptAccounts (add_balance db g u a).2 db := by
  unfold add_balance
  by_cases h : get_wallet db g u + a < 0
  · simp only [h, if_true]; exact sea_refl db
  · simp only [h, if_false]; exact update_wallet_sea db g u _

theorem transfer_balance_sea (db : DB) (g s r a : Int) :
    SameExceptAccounts (transfer_balance db g s r a).2 db := by
  unfold transfer_balance
  by_cases h : get_wallet (ensure_account (ensure_account db g s) g r) g s < a
  · simp only [h, if_true]; exact sea_refl db
  · simp only [h, if_false]
    exact sea_trans _ _ _ (update_wallet_sea _ g r _)
      (sea_trans _ _ _ (update_wallet_sea _ g s _)
        (sea_trans _ _ _ (ensure_account_sea _ g r) (ensure_account_sea db g s)))

theorem deduct_balance_sea (db : DB) (g u a : Int) :
    SameExceptAccounts (deduct_balance db g u a).2 db := by
  unfold deduct_balance
  by_cases h : get_wallet (ensure_account db g u) g u < a
  · simp only [h, if_true]; exact sea_refl db
  · simp only [h, if_false]
    exact sea_trans _ _ _ (update_wallet_sea _ g u _) (ensure_account_sea db g u)

/-- `transfer_balance` fails returning the untouched state exactly when
the sender's read wallet is below the amount. -/
theorem transfer_balance_fail (db : DB) (g s r a : Int)
    (hlt : get_wallet db g s < a) :
    transfer_balance db g s r a = (false, db) := by
  have hcur : get_wallet (ensure_account (ensure_account db g s) g r) g s =
      get_wallet db g s := by
    rw [get_wallet_ensure, get_wallet_ensure]
  simp only [transfer_balance]
  rw [if_pos (by rw [hcur]; exact hlt)]

/-- On a sufficient balance, `transfer_balance` succeeds and moves the
amount from sender to receiver (distinct accounts). -/
theorem transfer_balance_success (db : DB) (g s r a : Int) (hne : s ≠ r)
    (hle : a ≤ get_wallet db g s) :
    ∃ db', transfer_balance db g s r a = (true, db') ∧
      get_wallet db' g s = get_wallet db g s - a ∧
      get_wallet db' g r = get_wallet db g r + a := by
  have hkrs : ((g, r) : Int × Int) ≠ (g, s) := fun h =>
    hne ((congrArg Prod.snd h).symm)
  have hksr : ((g, s) : Int × Int) ≠ (g, r) := fun h =>
    hne (congrArg Prod.snd h)
  have h2s : (ensure_account (ensure_account db g s) g r).accounts (g, s) =
      some (get_wallet db g s) := by
    rw [ensure_account_accounts_other _ g r (g, s) hksr, ensure_account_some]
  have h2r : (ensure_account (ensure_account db g s) g r).accounts (g, r) =
      some (get_wallet db g r) := by
    rw [ensure_account_some, get_wallet_ensure_other db g s g r hkrs]
  have hcur : get_wallet (ensure_account (ensure_account db g s) g r) g s =
      get_wallet db g s := by
    simp [get_wallet, h2s]
  have hnotlt : ¬ (get_wallet (ensure_account (ensure_account db g s) g r) g s < a) := by
    rw [hcur]; omega
  refine ⟨update_wallet (update_wallet (ensure_account (ensure_account db g s) g r)
      g s (fun w => w - a)) g r (fun w => w + a), ?_, ?_, ?_⟩
  · simp only [transfer_balance]
    rw [if_neg hnotlt]
  · have h4s : (update_wallet (update_wallet (ensure_account (ensure_account db g s) g r)
        g s (fun w => w - a)) g r (fun w => w + a)).accounts (g, s) =
        some (get_wallet db g s - a) := by
      rw [update_wallet_accounts_other _ g r _ (g, s) hksr]
      exact update_wallet_accounts_self _ g s _ _ h2s
    simp [get_wallet, h4s]
  · have h3r : (update_wallet (ensure_account (ensure_account db g s) g r) g s
        (fun w => w - a)).accounts (g, r) = some (get_wallet db g r) := by
      rw [update_wallet_accounts_other _ g s _ (g, r) hkrs]; exact h2r
    have h4r : (update_wallet (update_wallet (ensure_account (ensure_account db g s) g r)
        g s (fun w => w - a)) g r (fun w => w + a)).accounts (g, r) =
        some (get_wallet db g r + a) :=
      update_wallet_accounts_self _ g r _ _ h3r
    simp [get_wallet, h4r]

theorem get_wallet_log_transfer (db : DB) (g s r a : Int) (now : String)
    (g' u : Int) : get_wallet (log_transfer db g s r a now) g' u =
      get_wallet db g' u := rfl

/-! ### C4 -/

/-- C4 counterexample: with sender = receiver = user 1 holding 10 silver
and valid amount 5, the `/transfer` command does not return success (it
rejects the self-payment) and changes nothing — the claim as stated,
quantifying over every sender and receiver, predicts success with a
debit and credit here. -/
theorem C4_counterexample :
    (0 : Int) < 5 ∧ (5 : Int) ≤ get_wallet dbTen 0 1 ∧
    (transfer_command dbTen 0 1 1 5 "t").1 ≠ TransferResult.success ∧
    (transfer_command dbTen 0 1 1 5 "t").2 = dbTen := by
  refine ⟨by decide, by decide, by decide, rfl⟩

/-- C4 (amended): for DISTINCT sender and receiver, the `/transfer`
command fails with InvalidAmount for a ≤ 0 changing nothing, fails with
InsufficientFunds for 0 < a with sender wallet < a changing nothing, and
otherwise succeeds, debiting the sender and crediting the receiver by
exactly a. -/
theorem C4_transfer_command_cases (db : DB) (g s r a : Int) (now : String)
    (hne : r ≠ s) :
    (a ≤ 0 → transfer_command db g s r a now = (.invalidAmount, db)) ∧
    (0 < a → get_wallet db g s < a →
      transfer_command db g s r a now = (.insufficientFunds, db)) ∧
    (0 < a → a ≤ get_wallet db g s →
      (transfer_command db g s r a now).1 = .success ∧
      get_wallet (transfer_command db g s r a now).2 g s = get_wallet db g s - a ∧
      get_wallet (transfer_command db g s r a now).2 g r = get_wallet db g r + a) := by
  refine ⟨?_, ?_, ?_⟩
  · intro h
    simp [transfer_command, h]
  · intro hpos hlt
    have h1 : ¬ (a ≤ 0) := by omega
    simp [transfer_command, h1, hne, transfer_balance_fail db g s r a hlt]
  · intro hpos hle
    have h1 : ¬ (a ≤ 0) := by omega
    obtain ⟨db', heq, hs', hr'⟩ :=
      transfer_balance_success db g s r a (fun h => hne h.symm) hle
    refine ⟨?_, ?_, ?_⟩
    · simp [transfer_command, h1, hne, heq]
    · simp [transfer_command, h1, hne, heq, get_wallet_log_transfer, hs']
    · simp [transfer_command, h1, hne, heq, get_wallet_log_transfer, hr']

/-- Witness for C4 at guild 0, sender 1 (holding 10), receiver 2. -/
theorem C4_witness :
    ((2 : Int) ≠ 1) ∧
    transfer_command dbTen 0 1 2 (-3) "t" = (.invalidAmount, dbTen) ∧
    transfer_command dbTen 0 1 2 100 "t" = (.insufficientFunds, dbTen) ∧
    (transfer_command dbTen 0 1 2 4 "t").1 = .success ∧
    get_wallet (transfer_command dbTen 0 1 2 4 "t").2 0 1 = 6 ∧
    get_wallet (transfer_command dbTen 0 1 2 4 "t").2 0 2 = 4 := by
  have h1 := C4_transfer_command_cases dbTen 0 1 2 (-3) "t" (by decide)
  have h2 := C4_transfer_command_cases dbTen 0 1 2 100 "t" (by decide)
  have h3 := C4_transfer_command_cases dbTen 0 1 2 4 "t" (by decide)
  refine ⟨by decide, h1.1 (by decide), h2.2.1 (by decide) (by decide), ?_, ?_, ?_⟩
  · exact (h3.2.2 (by decide) (by decide)).1
  · rw [(h3.2.2 (by decide) (by decide)).2.1]; decide
  · rw [(h3.2.2 (by decide) (by decide)).2.2]; decide

/-! ### Audit-state lemmas -/

theorem lu_refl (db : DB) : LogsUnchanged db db :=
  ⟨rfl, rfl, rfl, rfl, rfl, rfl, rfl⟩

theorem lu_trans (db1 db2 db3 : DB) (h12 : LogsUnchanged db1 db2)
    (h23 : LogsUnchanged db2 db3) : LogsUnchanged db1 db3 := by
  obtain ⟨a1, a2, a3, a4, a5, a6, a7⟩ := h12
  obtain ⟨b1, b2, b3, b4, b5, b6, b7⟩ := h23
  exact ⟨a1.trans b1, a2.trans b2, a3.trans b3, a4.trans b4, a5.trans b5,
    a6.trans b6, a7.trans b7⟩

theorem lu_of_sea (db1 db2 : DB) (h : SameExceptAccounts db1 db2) :
    LogsUnchanged db1 db2 := by
  simp only [SameExceptAccounts] at h
  exact ⟨h.2.1, h.2.2.1, h.2.2.2.1, h.2.2.2.2.1, h.2.2.2.2.2.1,
    h.2.2.2.2.2.2.1, h.2.2.2.2.2.2.2⟩

theorem ensure_treasury_lu (db : DB) (g : Int) :
    LogsUnchanged (ensure_treasury db g) db := by
  unfold ensure_treasury
  split <;> exact ⟨rfl, rfl, rfl, rfl, rfl, rfl, rfl⟩

theorem update_treasury_lu (db : DB) (g : Int) (f : Int → Int) :
    LogsUnchanged (update_treasury db g f) db := by
  unfold update_treasury
  split <;> exact ⟨rfl, rfl, rfl, rfl, rfl, rfl, rfl⟩

theorem add_treasury_lu (db : DB) (g a : Int) :
    LogsUnchanged (add_treasury db g a) db := by
  unfold add_treasury
  split <;> exact ⟨rfl, rfl, rfl, rfl, rfl, rfl, rfl⟩

theorem deduct_treasury_lu (db : DB) (g a : Int) :
    LogsUnchanged (deduct_treasury db g a).2 db := by
  unfold deduct_treasury
  by_cases hc : get_treasury (ensure_treasury db g) g < a
  · simp only [hc, if_true]
    exact lu_refl db
  · simp only [hc, if_false]
    exact lu_trans _ _ _ (update_treasury_lu _ g _) (ensure_treasury_lu db g)

theorem transfer_treasury_lu (db : DB) (g u a : Int) :
    LogsUnchanged (transfer_treasury_to_user db g u a).2 db := by
  unfold transfer_treasury_to_user
  by_cases hc : get_treasury (ensure_account (ensure_treasury db g) g u) g < a
  · simp only [hc, if_true]
    exact lu_refl db
  · simp only [hc, if_false]
    exact lu_trans _ _ _ (lu_of_sea _ _ (update_wallet_sea _ g u _))
      (lu_trans _ _ _ (update_treasury_lu _ g _)
        (lu_trans _ _ _ (lu_of_sea _ _ (ensure_account_sea _ g u))
          (ensure_treasury_lu db g)))

theorem credit_shares_sea (g share : Int) :
    ∀ (recipients : List Int) (db : DB),
      SameExceptAccounts (credit_shares g share recipients db) db := by
  intro recipients
  induction recipients with
  | nil =>
      intro db
      exact sea_refl db
  | cons m rest ih =>
      intro db
      exact sea_trans _ _ _ (ih ((add_balance (ensure_account db g m) g m share).2))
        (sea_trans _ _ _ (add_balance_sea (ensure_account db g m) g m share)
          (ensure_account_sea db g m))

theorem log_lootsplit_lootsplit_logs (db : DB) (g i : Int) (nm : Option String)
    (t tp ta re sh rc : Int) (rids now : String) :
    (log_lootsplit db g i nm t tp ta re sh rc rids now).lootsplit_logs =
      db.lootsplit_logs ++
        [⟨db.next_lootsplit_id, g, i, nm, t, tp, ta, re, sh, rc, rids, now⟩] := by
  simp only [log_lootsplit]
  by_cases h : rids ≠ ""
  · rw [if_pos h]
  · rw [if_neg h]

theorem log_lootsplit_transfer_logs (db : DB) (g i : Int) (nm : Option String)
    (t tp ta re sh rc : Int) (rids now : String) :
    (log_lootsplit db g i nm t tp ta re sh rc rids now).transfer_logs =
      db.transfer_logs := by
  simp only [log_lootsplit]
  by_cases h : rids ≠ ""
  · rw [if_pos h]
  · rw [if_neg h]

theorem log_lootsplit_treasury_logs (db : DB) (g i : Int) (nm : Option String)
    (t tp ta re sh rc : Int) (rids now : String) :
    (log_lootsplit db g i nm t tp ta re sh rc rids now).treasury_logs =
      db.treasury_logs := by
  simp only [log_lootsplit]
  by_cases h : rids ≠ ""
  · rw [if_pos h]
  · rw [if_neg h]

/-! ### C3 -/

/-- C3 counterexample: `/take_silver` removing 4 from user 1 (holding 10)
succeeds and mutates the wallet, yet appends no audit record to any log
table — the claim demands exactly one record per successful mutating
ledger operation. -/
theorem C3_counterexample :
    (take_silver_command dbTen 0 1 4).1 = DeductResult.success ∧
    get_balance (take_silver_command dbTen 0 1 4).2 0 1 = 6 ∧
    (take_silver_command dbTen 0 1 4).2.transfer_logs = [] ∧
    (take_silver_command dbTen 0 1 4).2.treasury_logs = [] ∧
    (take_silver_command dbTen 0 1 4).2.lootsplit_logs = [] :=
  ⟨by decide, by decide, by decide, by decide, by decide⟩

/-- C3 (amended): every successful logging command appends exactly one
audit record to its log table — one transfer_logs row per successful
`/transfer`, one treasury_logs row per successful `/treasury_add` and
per successful `/treasury_take` (both the take and the
transfer-to-user variants), one lootsplit_logs row per applied loot
split — and a failed command appends none; but the append happens on a
separate storage connection after the balance transaction commits (not
inside the same atomic unit), and the wallet-mutating commands
`/take_silver` and `/give_silver` append no audit record at all. -/
theorem C3_audit_records (db : DB) (g s r a m initiator : Int)
    (name : Option String) (total tax tax_amount remaining share : Int)
    (recipients : List Int) (now : String) :
    ((transfer_command db g s r a now).1 = .success →
      (transfer_command db g s r a now).2.transfer_logs =
        db.transfer_logs ++ [⟨db.next_transfer_id, g, s, r, a, now⟩] ∧
      (transfer_command db g s r a now).2.treasury_logs = db.treasury_logs ∧
      (transfer_command db g s r a now).2.lootsplit_logs = db.lootsplit_logs) ∧
    ((transfer_command db g s r a now).1 ≠ .success →
      (transfer_command db g s r a now).2.transfer_logs = db.transfer_logs ∧
      (transfer_command db g s r a now).2.treasury_logs = db.treasury_logs ∧
      (transfer_command db g s r a now).2.lootsplit_logs = db.lootsplit_logs) ∧
    ((take_silver_command db g m a).2.transfer_logs = db.transfer_logs ∧
      (take_silver_command db g m a).2.treasury_logs = db.treasury_logs ∧
      (take_silver_command db g m a).2.lootsplit_logs = db.lootsplit_logs) ∧
    ((give_silver_command db g m a).2.transfer_logs = db.transfer_logs ∧
      (give_silver_command db g m a).2.treasury_logs = db.treasury_logs ∧
      (give_silver_command db g m a).2.lootsplit_logs = db.lootsplit_logs) ∧
    (0 < a →
      (treasury_add_command db g initiator a now).1 = .success ∧
      (treasury_add_command db g initiator a now).2.treasury_logs =
        db.treasury_logs ++
          [⟨db.next_treasury_log_id, g, initiator, "add", a, none, now⟩] ∧
      (treasury_add_command db g initiator a now).2.transfer_logs =
        db.transfer_logs ∧
      (treasury_add_command db g initiator a now).2.lootsplit_logs =
        db.lootsplit_logs) ∧
    (a ≤ 0 → (treasury_add_command db g initiator a now).2 = db) ∧
    ((treasury_take_command db g initiator a (some m) now).1 = .success →
      (treasury_take_command db g initiator a (some m) now).2.treasury_logs =
        db.treasury_logs ++
          [⟨db.next_treasury_log_id, g, initiator, "transfer", a, some m, now⟩] ∧
      (treasury_take_command db g initiator a (some m) now).2.transfer_logs =
        db.transfer_logs ∧
      (treasury_take_command db g initiator a (some m) now).2.lootsplit_logs =
        db.lootsplit_logs) ∧
    ((treasury_take_command db g initiator a (some m) now).1 ≠ .success →
      (treasury_take_command db g initiator a (some m) now).2.treasury_logs =
        db.treasury_logs ∧
      (treasury_take_command db g initiator a (some m) now).2.transfer_logs =
        db.transfer_logs ∧
      (treasury_take_command db g initiator a (some m) now).2.lootsplit_logs =
        db.lootsplit_logs) ∧
    ((treasury_take_command db g initiator a none now).1 = .success →
      (treasury_take_command db g initiator a none now).2.treasury_logs =
        db.treasury_logs ++
          [⟨db.next_treasury_log_id, g, initiator, "take", a, none, now⟩] ∧
      (treasury_take_command db g initiator a none now).2.transfer_logs =
        db.transfer_logs ∧
      (treasury_take_command db g initiator a none now).2.lootsplit_logs =
        db.lootsplit_logs) ∧
    ((treasury_take_command db g initiator a none now).1 ≠ .success →
      (treasury_take_command db g initiator a none now).2.treasury_logs =
        db.treasury_logs ∧
      (treasury_take_command db g initiator a none now).2.transfer_logs =
        db.transfer_logs ∧
      (treasury_take_command db g initiator a none now).2.lootsplit_logs =
        db.lootsplit_logs) ∧
    ((lootsplit_confirm db g initiator name total tax tax_amount remaining
        share recipients now).lootsplit_logs =
      db.lootsplit_logs ++
        [⟨db.next_lootsplit_id, g, initiator, name, total, tax, tax_amount,
          remaining, share, (recipients.length : Int),
          String.intercalate "," (recipients.map toString), now⟩] ∧
      (lootsplit_confirm db g initiator name total tax tax_amount remaining
        share recipients now).transfer_logs = db.transfer_logs ∧
      (lootsplit_confirm db g initiator name total tax tax_amount remaining
        share recipients now).treasury_logs = db.treasury_logs) := by
  refine ⟨?_, ?_, ?_, ?_, ?_, ?_, ?_, ?_, ?_, ?_, ?_⟩
  · intro hsucc
    by_cases h1 : a ≤ 0
    · simp [transfer_command, h1] at hsucc
    by_cases h2 : r = s
    · simp [transfer_command, h1, h2] at hsucc
    rcases heq : transfer_balance db g s r a with ⟨b, db'⟩
    have hsea := transfer_balance_sea db g s r a
    rw [heq] at hsea
    simp only [SameExceptAccounts] at hsea
    cases b
    · simp [transfer_command, h1, h2, heq] at hsucc
    · simp [transfer_command, h1, h2, heq, log_transfer, hsea.2.1,
        hsea.2.2.1, hsea.2.2.2.1, hsea.2.2.2.2.2.1]
  · intro hns
    by_cases h1 : a ≤ 0
    · simp [transfer_command, h1]
    by_cases h2 : r = s
    · simp [transfer_command, h1, h2]
    rcases heq : transfer_balance db g s r a with ⟨b, db'⟩
    have hsea := transfer_balance_sea db g s r a
    rw [heq] at hsea
    simp only [SameExceptAccounts] at hsea
    cases b
    · simp [transfer_command, h1, h2, heq, hsea.2.1, hsea.2.2.1, hsea.2.2.2.1]
    · exact absurd (by simp [transfer_command, h1, h2, heq]) hns
  · have hsea := deduct_balance_sea db g m a
    by_cases h1 : a ≤ 0
    · simp [take_silver_command, h1]
    rcases heq : deduct_balance db g m a with ⟨b, db'⟩
    rw [heq] at hsea
    simp only [SameExceptAccounts] at hsea
    cases b <;>
      simp [take_silver_command, h1, heq, hsea.2.1, hsea.2.2.1, hsea.2.2.2.1]
  · by_cases h1 : a ≤ 0
    · simp [give_silver_command, h1]
    · have hsea := sea_trans _ _ _ (add_balance_sea (ensure_account db g m) g m a)
        (ensure_account_sea db g m)
      simp only [SameExceptAccounts] at hsea
      simp [give_silver_command, h1, hsea.2.1, hsea.2.2.1, hsea.2.2.2.1]
  · intro hpos
    have h1 : ¬ (a ≤ 0) := by omega
    have hlu := add_treasury_lu db g a
    simp only [LogsUnchanged] at hlu
    refine ⟨by simp [treasury_add_command, h1], ?_, ?_, ?_⟩
    · simp [treasury_add_command, h1, log_treasury, hlu.2.1, hlu.2.2.2.2.2.1]
    · simp [treasury_add_command, h1, log_treasury, hlu.1]
    · simp [treasury_add_command, h1, log_treasury, hlu.2.2.1]
  · intro h1
    simp [treasury_add_command, h1]
  · intro hsucc
    by_cases h1 : a ≤ 0
    · simp [treasury_take_command, h1] at hsucc
    rcases heq : transfer_treasury_to_user db g m a with ⟨b, db'⟩
    have hlu := transfer_treasury_lu db g m a
    rw [heq] at hlu
    simp only [LogsUnchanged] at hlu
    cases b
    · simp [treasury_take_command, h1, heq] at hsucc
    · refine ⟨?_, ?_, ?_⟩
      · simp [treasury_take_command, h1, heq, log_treasury, hlu.2.1,
          hlu.2.2.2.2.2.1]
      · simp [treasury_take_command, h1, heq, log_treasury, hlu.1]
      · simp [treasury_take_command, h1, heq, log_treasury, hlu.2.2.1]
  · intro hns
    by_cases h1 : a ≤ 0
    · simp [treasury_take_command, h1]
    rcases heq : transfer_treasury_to_user db g m a with ⟨b, db'⟩
    have hlu := transfer_treasury_lu db g m a
    rw [heq] at hlu
    simp only [LogsUnchanged] at hlu
    cases b
    · simp [treasury_take_command, h1, heq, hlu.2.1, hlu.1, hlu.2.2.1]
    · exact absurd (by simp [treasury_take_command, h1, heq]) hns
  · intro hsucc
    by_cases h1 : a ≤ 0
    · simp [treasury_take_command, h1] at hsucc
    rcases heq : deduct_treasury db g a with ⟨b, db'⟩
    have hlu := deduct_treasury_lu db g a
    rw [heq] at hlu
    simp only [LogsUnchanged] at hlu
    cases b
    · simp [treasury_take_command, h1, heq] at hsucc
    · refine ⟨?_, ?_, ?_⟩
      · simp [treasury_take_command, h1, heq, log_treasury, hlu.2.1,
          hlu.2.2.2.2.2.1]
      · simp [treasury_take_command, h1, heq, log_treasury, hlu.1]
      · simp [treasury_take_command, h1, heq, log_treasury, hlu.2.2.1]
  · intro hns
    by_cases h1 : a ≤ 0
    · simp [treasury_take_command, h1]
    rcases heq : deduct_treasury db g a with ⟨b, db'⟩
    have hlu := deduct_treasury_lu db g a
    rw [heq] at hlu
    simp only [LogsUnchanged] at hlu
    cases b
    · simp [treasury_take_command, h1, heq, hlu.2.1, hlu.1, hlu.2.2.1]
    · exact absurd (by simp [treasury_take_command, h1, heq]) hns
  · have hlu1 : LogsUnchanged (credit_shares g share recipients db) db :=
      lu_of_sea _ _ (credit_shares_sea g share recipients db)
    have hlu2 : LogsUnchanged
        (if tax_amount > 0 then
          add_treasury (credit_shares g share recipients db) g tax_amount
        else credit_shares g share recipients db) db := by
      by_cases ht : tax_amount > 0
      · rw [if_pos ht]
        exact lu_trans _ _ _ (add_treasury_lu _ g tax_amount) hlu1
      · rw [if_neg ht]
        exact hlu1
    simp only [LogsUnchanged] at hlu2
    refine ⟨?_, ?_, ?_⟩
    · simp only [lootsplit_confirm]
      rw [log_lootsplit_lootsplit_logs, hlu2.2.2.1, hlu2.2.2.2.2.2.2]
    · simp only [lootsplit_confirm]
      rw [log_lootsplit_transfer_logs, hlu2.1]
    · simp only [lootsplit_confirm]
      rw [log_lootsplit_treasury_logs, hlu2.2.1]

/-- Witness for C3: a successful transfer appends exactly its one log
row and a failed one appends none; a treasury add, a funded treasury
take and an applied loot split each append exactly their one row, while
an unfunded treasury transfer appends none. -/
theorem C3_witness :
    (transfer_command dbTen 0 1 2 4 "t").1 = TransferResult.success ∧
    (transfer_command dbTen 0 1 2 4 "t").2.transfer_logs =
      dbTen.transfer_logs ++ [⟨dbTen.next_transfer_id, 0, 1, 2, 4, "t"⟩] ∧
    (transfer_command dbTen 0 1 2 100 "t").1 ≠ TransferResult.success ∧
    (transfer_command dbTen 0 1 2 100 "t").2.transfer_logs =
      dbTen.transfer_logs ∧
    (0 : Int) < 5 ∧
    (treasury_add_command dbTen 0 9 5 "t").2.treasury_logs =
      dbTen.treasury_logs ++
        [⟨dbTen.next_treasury_log_id, 0, 9, "add", 5, none, "t"⟩] ∧
    (treasury_take_command dbTreas 0 9 20 none "t").1 = DeductResult.success ∧
    (treasury_take_command dbTreas 0 9 20 none "t").2.treasury_logs =
      dbTreas.treasury_logs ++
        [⟨dbTreas.next_treasury_log_id, 0, 9, "take", 20, none, "t"⟩] ∧
    (treasury_take_command dbTen 0 9 3 (some 1) "t").1 ≠
      DeductResult.success ∧
    (treasury_take_command dbTen 0 9 3 (some 1) "t").2.treasury_logs =
      dbTen.treasury_logs ∧
    (lootsplit_confirm dbTen 0 9 none 1000 10 90 810 270 [1, 2, 3]
        "t").lootsplit_logs =
      dbTen.lootsplit_logs ++
        [⟨dbTen.next_lootsplit_id, 0, 9, none, 1000, 10, 90, 810, 270, 3,
          "1,2,3", "t"⟩] := by
  obtain ⟨p1, -, -, -, -, -, -, -, -, -, p11⟩ :=
    C3_audit_records dbTen 0 1 2 4 1 9 none 1000 10 90 810 270 [1, 2, 3] "t"
  obtain ⟨-, q2, -, -, -, -, -, -, -, -, -⟩ :=
    C3_audit_records dbTen 0 1 2 100 1 9 none 1000 10 90 810 270 [1, 2, 3] "t"
  obtain ⟨-, -, -, -, r5, -, -, -, -, -, -⟩ :=
    C3_audit_records dbTen 0 1 2 5 1 9 none 1000 10 90 810 270 [1, 2, 3] "t"
  obtain ⟨-, -, -, -, -, -, -, -, s9, -, -⟩ :=
    C3_audit_records dbTreas 0 1 2 20 1 9 none 1000 10 90 810 270 [1, 2, 3] "t"
  obtain ⟨-, -, -, -, -, -, -, t8, -, -, -⟩ :=
    C3_audit_records dbTen 0 1 2 3 1 9 none 1000 10 90 810 270 [1, 2, 3] "t"
  refine ⟨by decide, (p1 (by decide)).1, by decide, (q2 (by decide)).1,
    by decide, (r5 (by decide)).2.1, by decide, (s9 (by decide)).1,
    by decide, (t8 (by decide)).1, ?_⟩
  rw [p11.1]
  decide

/-! ### Non-negativity lemmas for C2 -/

theorem accounts_nonneg_of_eq (db1 db2 : DB) (h : db1.accounts = db2.accounts)
    (h2 : AccountsNonneg db2) : AccountsNonneg db1 := by
  intro k w hk
  rw [h] at hk
  exact h2 k w hk

theorem treasury_nonneg_of_eq (db1 db2 : DB) (h : db1.treasury = db2.treasury)
    (h2 : TreasuryNonneg db2) : TreasuryNonneg db1 := by
  intro g b hb
  rw [h] at hb
  exact h2 g b hb

theorem ensure_account_accounts_pt (db : DB) (g u : Int) (k : Int × Int) :
    (ensure_account db g u).accounts k = db.accounts k ∨
    ((ensure_account db g u).accounts k = some 0 ∧ k = (g, u)) := by
  unfold ensure_account
  split
  · left; rfl
  · by_cases he : k = (g, u)
    · right; exact ⟨by simp [he], he⟩
    · left; simp [he]

theorem ensure_account_nonneg (db : DB) (g u : Int) (h : AccountsNonneg db) :
    AccountsNonneg (ensure_account db g u) := by
  intro k w hk
  rcases ensure_account_accounts_pt db g u k with heq | ⟨heq, _⟩
  · rw [heq] at hk; exact h k w hk
  · rw [heq] at hk; injection hk with h'; omega

theorem ensure_treasury_treasury_pt (db : DB) (g : Int) (k : Int) :
    (ensure_treasury db g).treasury k = db.treasury k ∨
    ((ensure_treasury db g).treasury k = some 0 ∧ k = g) := by
  unfold ensure_treasury
  split
  · left; rfl
  · by_cases he : k = g
    · right; exact ⟨by simp [he], he⟩
    · left; simp [he]

theorem ensure_treasury_nonneg (db : DB) (g : Int) (h : TreasuryNonneg db) :
    TreasuryNonneg (ensure_treasury db g) := by
  intro k b hk
  rcases ensure_treasury_treasury_pt db g k with heq | ⟨heq, _⟩
  · rw [heq] at hk; exact h k b hk
  · rw [heq] at hk; injection hk with h'; omega

theorem update_wallet_accounts_pt (db : DB) (g u : Int) (f : Int → Int)
    (k : Int × Int) :
    (update_wallet db g u f).accounts k = db.accounts k ∨
    (∃ w, db.accounts (g, u) = some w ∧
      (update_wallet db g u f).accounts k = some (f w) ∧ k = (g, u)) := by
  cases hc : db.accounts (g, u) with
  | none => left; simp [update_wallet, hc]
  | some w =>
      by_cases he : k = (g, u)
      · right; exact ⟨w, rfl, by simp [update_wallet, hc, he], he⟩
      · left; simp [update_wallet, hc, he]

theorem update_wallet_nonneg (db : DB) (g u : Int) (f : Int → Int)
    (h : AccountsNonneg db)
    (hf : ∀ w, db.accounts (g, u) = some w → 0 ≤ f w) :
    AccountsNonneg (update_wallet db g u f) := by
  intro k w' hk
  rcases update_wallet_accounts_pt db g u f k with heq | ⟨w, hw, heq, _⟩
  · rw [heq] at hk; exact h k w' hk
  · rw [heq] at hk; injection hk with h'; rw [← h']; exact hf w hw

theorem update_treasury_treasury_pt (db : DB) (g : Int) (f : Int → Int)
    (k : Int) :
    (update_treasury db g f).treasury k = db.treasury k ∨
    (∃ b, db.treasury g = some b ∧
      (update_treasury db g f).treasury k = some (f b) ∧ k = g) := by
  cases hc : db.treasury g with
  | none => left; simp [update_treasury, hc]
  | some b =>
      by_cases he : k = g
      · right; exact ⟨b, rfl, by simp [update_treasury, hc, he], he⟩
      · left; simp [update_treasury, hc, he]

theorem update_treasury_nonneg (db : DB) (g : Int) (f : Int → Int)
    (h : TreasuryNonneg db)
    (hf : ∀ b, db.treasury g = some b → 0 ≤ f b) :
    TreasuryNonneg (update_treasury db g f) := by
  intro k b' hk
  rcases update_treasury_treasury_pt db g f k with heq | ⟨b, hb, heq, _⟩
  · rw [heq] at hk; exact h k b' hk
  · rw [heq] at hk; injection hk with h'; rw [← h']; exact hf b hb

theorem ensure_treasury_accounts (db : DB) (g : Int) :
    (ensure_treasury db g).accounts = db.accounts := by
  unfold ensure_treasury
  split <;> rfl

theorem update_treasury_accounts (db : DB) (g : Int) (f : Int → Int) :
    (update_treasury db g f).accounts = db.accounts := by
  unfold update_treasury
  split <;> rfl

theorem add_treasury_accounts (db : DB) (g a : Int) :
    (add_treasury db g a).accounts = db.accounts := by
  unfold add_treasury
  split <;> rfl

theorem add_treasury_treasury_pt (db : DB) (g a : Int) (k : Int) :
    (add_treasury db g a).treasury k = db.treasury k ∨
    (k = g ∧ ((∃ b, db.treasury g = some b ∧
        (add_treasury db g a).treasury k = some (b + a)) ∨
      (db.treasury g = none ∧ (add_treasury db g a).treasury k = some a))) := by
  cases hc : db.treasury g with
  | some b =>
      by_cases he : k = g
      · right; exact ⟨he, Or.inl ⟨b, rfl, by simp [add_treasury, hc, he]⟩⟩
      · left; simp [add_treasury, hc, he]
  | none =>
      by_cases he : k = g
      · right; exact ⟨he, Or.inr ⟨rfl, by simp [add_treasury, hc, he]⟩⟩
      · left; simp [add_treasury, hc, he]

theorem add_treasury_nonneg (db : DB) (g a : Int) (ha : 0 ≤ a)
    (h : TreasuryNonneg db) : TreasuryNonneg (add_treasury db g a) := by
  intro k b' hk
  rcases add_treasury_treasury_pt db g a k with heq | ⟨_, ⟨b, hb, heq⟩ | ⟨_, heq⟩⟩
  · rw [heq] at hk; exact h k b' hk
  · rw [heq] at hk; injection hk with h'
    have := h g b hb
    omega
  · rw [heq] at hk; injection hk with h'; omega

theorem add_balance_nonneg (db : DB) (g u a : Int) (h : AccountsNonneg db) :
    AccountsNonneg (add_balance db g u a).2 := by
  unfold add_balance
  by_cases hc : get_wallet db g u + a < 0
  · simp only [hc, if_true]; exact h
  · simp only [hc, if_false]
    exact update_wallet_nonneg db g u _ h (fun w _ => by omega)

theorem deduct_balance_nonneg (db : DB) (g u a : Int) (h : AccountsNonneg db) :
    AccountsNonneg (deduct_balance db g u a).2 := by
  unfold deduct_balance
  by_cases hc : get_wallet (ensure_account db g u) g u < a
  · simp only [hc, if_true]; exact h
  · simp only [hc, if_false]
    apply update_wallet_nonneg _ g u _ (ensure_account_nonneg db g u h)
    intro w hw
    have : get_wallet (ensure_account db g u) g u = w := by simp [get_wallet, hw]
    omega

theorem transfer_balance_nonneg (db : DB) (g s r a : Int) (ha : 0 ≤ a)
    (h : AccountsNonneg db) : AccountsNonneg (transfer_balance db g s r a).2 := by
  unfold transfer_balance
  by_cases hc : get_wallet (ensure_account (ensure_account db g s) g r) g s < a
  · simp only [hc, if_true]; exact h
  · simp only [hc, if_false]
    have h2 : AccountsNonneg (ensure_account (ensure_account db g s) g r) :=
      ensure_account_nonneg _ g r (ensure_account_nonneg db g s h)
    have h3 : AccountsNonneg (update_wallet
        (ensure_account (ensure_account db g s) g r) g s (fun w => w - a)) := by
      apply update_wallet_nonneg _ g s _ h2
      intro w hw
      have : get_wallet (ensure_account (ensure_account db g s) g r) g s = w := by
        simp [get_wallet, hw]
      omega
    apply update_wallet_nonneg _ g r _ h3
    intro w hw
    have := h3 (g, r) w hw
    omega

theorem deduct_treasury_nonneg (db : DB) (g a : Int) (h : TreasuryNonneg db) :
    TreasuryNonneg (deduct_treasury db g a).2 := by
  unfold deduct_treasury
  by_cases hc : get_treasury (ensure_treasury db g) g < a
  · simp only [hc, if_true]; exact h
  · simp only [hc, if_false]
    apply update_treasury_nonneg _ g _ (ensure_treasury_nonneg db g h)
    intro b hb
    have : get_treasury (ensure_treasury db g) g = b := by simp [get_treasury, hb]
    omega

theorem transfer_treasury_nonneg_acc (db : DB) (g u a : Int) (ha : 0 ≤ a)
    (hacc : AccountsNonneg db) :
    AccountsNonneg (transfer_treasury_to_user db g u a).2 := by
  unfold transfer_treasury_to_user
  by_cases hc : get_treasury (ensure_account (ensure_treasury db g) g u) g < a
  · simp only [hc, if_true]; exact hacc
  · simp only [hc, if_false]
    have h1 : AccountsNonneg (ensure_account (ensure_treasury db g) g u) := by
      apply ensure_account_nonneg
      exact accounts_nonneg_of_eq _ db (ensure_treasury_accounts db g) hacc
    have h2 : AccountsNonneg (update_treasury
        (ensure_account (ensure_treasury db g) g u) g (fun b => b - a)) :=
      accounts_nonneg_of_eq _ _ (update_treasury_accounts _ g _) h1
    apply update_wallet_nonneg _ g u _ h2
    intro w hw
    have := h2 (g, u) w hw
    omega

theorem transfer_treasury_nonneg_tr (db : DB) (g u a : Int)
    (htr : TreasuryNonneg db) :
    TreasuryNonneg (transfer_treasury_to_user db g u a).2 := by
  unfold transfer_treasury_to_user
  by_cases hc : get_treasury (ensure_account (ensure_treasury db g) g u) g < a
  · simp only [hc, if_true]; exact htr
  · simp only [hc, if_false]
    have h1 : TreasuryNonneg (ensure_account (ensure_treasury db g) g u) :=
      treasury_nonneg_of_eq _ _ (ensure_account_sea (ensure_treasury db g) g u).1
        (ensure_treasury_nonneg db g htr)
    have h2 : TreasuryNonneg (update_treasury
        (ensure_account (ensure_treasury db g) g u) g (fun b => b - a)) := by
      apply update_treasury_nonneg _ g _ h1
      intro b hb
      have : get_treasury (ensure_account (ensure_treasury db g) g u) g = b := by
        simp [get_treasury, hb]
      omega
    exact treasury_nonneg_of_eq _ _ (update_wallet_sea _ g u _).1 h2

/-! ### Failure-path lemmas for C2 -/

theorem add_balance_false (db : DB) (g u a : Int)
    (hf : (add_balance db g u a).1 = false) : (add_balance db g u a).2 = db := by
  unfold add_balance at *
  by_cases hc : get_wallet db g u + a < 0
  · simp [hc]
  · simp [hc] at hf

theorem deduct_balance_false (db : DB) (g u a : Int)
    (hf : (deduct_balance db g u a).1 = false) :
    (deduct_balance db g u a).2 = db := by
  unfold deduct_balance at *
  by_cases hc : get_wallet (ensure_account db g u) g u < a
  · simp [hc]
  · simp [hc] at hf

theorem transfer_balance_false (db : DB) (g s r a : Int)
    (hf : (transfer_balance db g s r a).1 = false) :
    (transfer_balance db g s r a).2 = db := by
  unfold transfer_balance at *
  by_cases hc : get_wallet (ensure_account (ensure_account db g s) g r) g s < a
  · simp [hc]
  · simp [hc] at hf

theorem deduct_treasury_false (db : DB) (g a : Int)
    (hf : (deduct_treasury db g a).1 = false) :
    (deduct_treasury db g a).2 = db := by
  unfold deduct_treasury at *
  by_cases hc : get_treasury (ensure_treasury db g) g < a
  · simp [hc]
  · simp [hc] at hf

theorem transfer_treasury_false (db : DB) (g u a : Int)
    (hf : (transfer_treasury_to_user db g u a).1 = false) :
    (transfer_treasury_to_user db g u a).2 = db := by
  unfold transfer_treasury_to_user at *
  by_cases hc : get_treasury (ensure_account (ensure_treasury db g) g u) g < a
  · simp [hc]
  · simp [hc] at hf

/-! ### C2 -/

/-- C2 counterexample: starting from the all-non-negative empty state,
`add_treasury` with amount -5 (it never checks the sign) drives guild
7's treasury to -5 without any failure return, and `transfer_balance`
with amount -5 returns True while driving receiver 2's wallet to -5 —
the claim, quantified over every integer amount, demands non-negativity
be preserved or an InsufficientFunds failure with no change. -/
theorem C2_counterexample :
    AccountsNonneg dbEmpty ∧ TreasuryNonneg dbEmpty ∧
    get_treasury (add_treasury dbEmpty 7 (-5)) 7 = -5 ∧
    (transfer_balance dbEmpty 0 1 2 (-5)).1 = true ∧
    get_wallet (transfer_balance dbEmpty 0 1 2 (-5)).2 0 2 = -5 := by
  refine ⟨?_, ?_, by decide, by decide, by decide⟩
  · intro k w hk
    simp [dbEmpty] at hk
  · intro g b hb
    simp [dbEmpty] at hb

/-- C2 (amended): for every NON-NEGATIVE amount, each of the six ledger
operations (add_balance, deduct_balance, transfer_balance, add_treasury,
deduct_treasury, transfer_treasury_to_user) preserves non-negativity of
every wallet and every treasury balance, and each checked operation that
returns False leaves the state exactly as it was. -/
theorem C2_nonneg_preserved (db : DB) (g u s r a : Int) (ha : 0 ≤ a)
    (hacc : AccountsNonneg db) (htr : TreasuryNonneg db) :
    (AccountsNonneg (add_balance db g u a).2 ∧
      TreasuryNonneg (add_balance db g u a).2) ∧
    (AccountsNonneg (deduct_balance db g u a).2 ∧
      TreasuryNonneg (deduct_balance db g u a).2) ∧
    (AccountsNonneg (transfer_balance db g s r a).2 ∧
      TreasuryNonneg (transfer_balance db g s r a).2) ∧
    (AccountsNonneg (add_treasury db g a) ∧
      TreasuryNonneg (add_treasury db g a)) ∧
    (AccountsNonneg (deduct_treasury db g a).2 ∧
      TreasuryNonneg (deduct_treasury db g a).2) ∧
    (AccountsNonneg (transfer_treasury_to_user db g u a).2 ∧
      TreasuryNonneg (transfer_treasury_to_user db g u a).2) ∧
    ((add_balance db g u a).1 = false → (add_balance db g u a).2 = db) ∧
    ((deduct_balance db g u a).1 = false → (deduct_balance db g u a).2 = db) ∧
    ((transfer_balance db g s r a).1 = false → (transfer_balance db g s r a).2 = db) ∧
    ((deduct_treasury db g a).1 = false → (deduct_treasury db g a).2 = db) ∧
    ((transfer_treasury_to_user db g u a).1 = false →
      (transfer_treasury_to_user db g u a).2 = db) := by
  have hdtacc : (deduct_treasury db g a).2.accounts = db.accounts := by
    unfold deduct_treasury
    by_cases hc : get_treasury (ensure_treasury db g) g < a
    · simp [hc]
    · simp [hc, update_treasury_accounts, ensure_treasury_accounts]
  refine ⟨⟨add_balance_nonneg db g u a hacc,
      treasury_nonneg_of_eq _ db (add_balance_sea db g u a).1 htr⟩,
    ⟨deduct_balance_nonneg db g u a hacc,
      treasury_nonneg_of_eq _ db (deduct_balance_sea db g u a).1 htr⟩,
    ⟨transfer_balance_nonneg db g s r a ha hacc,
      treasury_nonneg_of_eq _ db (transfer_balance_sea db g s r a).1 htr⟩,
    ⟨accounts_nonneg_of_eq _ db (add_treasury_accounts db g a) hacc,
      add_treasury_nonneg db g a ha htr⟩,
    ⟨accounts_nonneg_of_eq _ db hdtacc hacc,
      deduct_treasury_nonneg db g a htr⟩,
    ⟨transfer_treasury_nonneg_acc db g u a ha hacc,
      transfer_treasury_nonneg_tr db g u a htr⟩,
    add_balance_false db g u a,
    deduct_balance_false db g u a,
    transfer_balance_false db g s r a,
    deduct_treasury_false db g a,
    transfer_treasury_false db g u a⟩

/-- Witness for C2 at the literal non-negative state `dbW` (user (0,1)
holds 10): preservation with amount 5, and the untouched-state guarantee
at a failing deduction of 100. -/
theorem C2_witness :
    (0 : Int) ≤ 5 ∧ AccountsNonneg dbW ∧ TreasuryNonneg dbW ∧
    AccountsNonneg (transfer_balance dbW 0 1 2 5).2 ∧
    TreasuryNonneg (add_treasury dbW 0 5) ∧
    (deduct_balance dbW 0 1 100).2 = dbW := by
  have hacc : AccountsNonneg dbW := by
    intro k w hk
    simp only [dbW, dbEmpty] at hk
    by_cases he : k = (0, 1)
    · rw [if_pos he] at hk
      injection hk with h'
      omega
    · rw [if_neg he] at hk
      exact Option.noConfusion hk
  have htr : TreasuryNonneg dbW := by
    intro g b hb
    simp [dbW, dbEmpty] at hb
  have h5 := C2_nonneg_preserved dbW 0 1 1 2 5 (by decide) hacc htr
  have h100 := C2_nonneg_preserved dbW 0 1 1 2 100 (by decide) hacc htr
  exact ⟨by decide, hacc, htr, h5.2.2.1.1, h5.2.2.2.1.2,
    h100.2.2.2.2.2.2.2.1 (by decide)⟩

/-! ### Sorting lemmas for C7 -/

theorem mem_ins_desc {α : Type} (key : α → Int) (x : α) (l : List α) (a : α) :
    a ∈ ins_desc key x l ↔ a = x ∨ a ∈ l := by
  induction l with
  | nil => simp [ins_desc]
  | cons y ys ih =>
      unfold ins_desc
      by_cases h : key y ≤ key x
      · simp [h]
      · simp [h, ih]
        tauto

theorem mem_sort_desc {α : Type} (key : α → Int) (l : List α) (a : α) :
    a ∈ sort_desc key l ↔ a ∈ l := by
  induction l with
  | nil => simp [sort_desc]
  | cons x xs ih =>
      show a ∈ ins_desc key x (sort_desc key xs) ↔ _
      rw [mem_ins_desc]
      simp [ih]

theorem pairwise_ins_desc {α : Type} (key : α → Int) (x : α) (l : List α)
    (hl : l.Pairwise (fun a b => key b ≤ key a)) :
    (ins_desc key x l).Pairwise (fun a b => key b ≤ key a) := by
  induction l with
  | nil => simp [ins_desc]
  | cons y ys ih =>
      rw [List.pairwise_cons] at hl
      obtain ⟨hy, hys⟩ := hl
      unfold ins_desc
      by_cases h : key y ≤ key x
      · rw [if_pos h, List.pairwise_cons]
        refine ⟨?_, ?_⟩
        · intro b hb
          rcases List.mem_cons.mp hb with rfl | hb
          · exact h
          · exact le_trans (hy b hb) h
        · rw [List.pairwise_cons]
          exact ⟨hy, hys⟩
      · rw [if_neg h, List.pairwise_cons]
        refine ⟨?_, ih hys⟩
        intro b hb
        rcases (mem_ins_desc key x ys b).mp hb with rfl | hb
        · omega
        · exact hy b hb

theorem pairwise_sort_desc {α : Type} (key : α → Int) (l : List α) :
    (sort_desc key l).Pairwise (fun a b => key b ≤ key a) := by
  induction l with
  | nil => simp [sort_desc]
  | cons x xs ih => exact pairwise_ins_desc key x _ ih

theorem pairwise_take_drop {α : Type} (key : α → Int) (l : List α)
    (n m : Nat) (h : l.Pairwise (fun a b => key b ≤ key a)) :
    ((l.drop m).take n).Pairwise (fun a b => key b ≤ key a) := by
  have h1 : List.Sublist (l.drop m) l := List.drop_sublist m l
  have h2 : List.Sublist ((l.drop m).take n) (l.drop m) := List.take_sublist n _
  exact h.sublist (h2.trans h1)

/-! ### C7 -/

/-- C7: each history reader returns rows of the requested guild ordered
newest-first by the monotone insertion id (ids within a page are
non-increasing), with limit and offset applied to that order; after 15
same-timestamp transfer insertions, limit 5 / offset 10 returns exactly
the 5 oldest records of the batch, newest-first within the page. -/
theorem C7_history_pagination :
    (∀ db g lim off, (get_transfer_history_rows db g lim off).Pairwise
        (fun x y => y.id ≤ x.id)) ∧
    (∀ db g lim off, ∀ t ∈ get_transfer_history_rows db g lim off,
        t.guild_id = g) ∧
    (∀ db g lim off, (get_treasury_history_rows db g lim off).Pairwise
        (fun x y => y.id ≤ x.id)) ∧
    (∀ db g lim off, (get_lootsplit_history_rows db g lim off).Pairwise
        (fun x y => y.id ≤ x.id)) ∧
    (get_transfer_history_rows db15 0 5 10).map (fun t => t.id) =
      [5, 4, 3, 2, 1] ∧
    get_transfer_history db15 0 5 10 =
      [(1, 2, 5, "T"), (1, 2, 4, "T"), (1, 2, 3, "T"), (1, 2, 2, "T"),
        (1, 2, 1, "T")] := by
  refine ⟨?_, ?_, ?_, ?_, by decide, by decide⟩
  · intro db g lim off
    exact pairwise_take_drop _ _ lim off (pairwise_sort_desc _ _)
  · intro db g lim off t ht
    have hs : List.Sublist (get_transfer_history_rows db g lim off)
        (sort_desc (fun t => t.id)
          (db.transfer_logs.filter (fun t => t.guild_id == g))) :=
      (List.take_sublist _ _).trans (List.drop_sublist _ _)
    have h1 : t ∈ sort_desc (fun t => t.id)
        (db.transfer_logs.filter (fun t => t.guild_id == g)) := hs.subset ht
    rw [mem_sort_desc] at h1
    have := List.of_mem_filter h1
    exact beq_iff_eq.mp this
  · intro db g lim off
    unfold get_treasury_history_rows
    cases lim with
    | none => exact pairwise_sort_desc _ _
    | some l => exact pairwise_take_drop _ _ l off (pairwise_sort_desc _ _)
  · intro db g lim off
    exact pairwise_take_drop _ _ lim off (pairwise_sort_desc _ _)

/-- Witness for C7: the newest row of the concrete page belongs to the
queried guild. -/
theorem C7_witness :
    (⟨5, 0, 1, 2, 5, "T"⟩ : TransferLog) ∈
      get_transfer_history_rows db15 0 5 10 ∧
    (⟨5, 0, 1, 2, 5, "T"⟩ : TransferLog).guild_id = 0 := by
  have h := C7_history_pagination.2.1 db15 0 5 10 ⟨5, 0, 1, 2, 5, "T"⟩ (by decide)
  exact ⟨by decide, h⟩

/-! ### C8 -/

/-- C8: the loot-split history reader sources recipient ids from the
membership relation whenever at least one membership row matches the
entry, and falls back to the entry's stored comma-joined string when
none does; demonstrated concretely on a membership/stored mismatch and
on a pure legacy row. -/
theorem C8_recipient_source :
    (∀ (db : DB) (l : LootsplitLog),
      db.lootsplit_recipients.filter (fun p => p.fst == l.id) ≠ [] →
      lootsplit_row_recipient_ids db l =
        String.intercalate ","
          (((db.lootsplit_recipients.filter (fun p => p.fst == l.id)).map
            Prod.snd).map toString)) ∧
    (∀ (db : DB) (l : LootsplitLog),
      db.lootsplit_recipients.filter (fun p => p.fst == l.id) = [] →
      lootsplit_row_recipient_ids db l = l.recipient_ids) ∧
    get_lootsplit_history dbMismatch 0 5 0 =
      [⟨9, none, 100, 10, 45, "3,4", "T"⟩] ∧
    get_lootsplit_history dbLegacy 0 5 0 =
      [⟨9, none, 100, 10, 45, "1,2", "T"⟩] := by
  refine ⟨?_, ?_, by decide, by decide⟩
  · intro db l hne
    have hms : ((db.lootsplit_recipients.filter
        (fun p => p.fst == l.id)).map Prod.snd).isEmpty = false := by
      cases hl : db.lootsplit_recipients.filter (fun p => p.fst == l.id) with
      | nil => exact absurd hl hne
      | cons x xs => rfl
    simp only [lootsplit_row_recipient_ids, hms]
    simp
  · intro db l he
    simp only [lootsplit_row_recipient_ids, he]
    simp

/-- Witness for C8: at the mismatch state the membership rows win; at
the legacy state the stored string is returned. -/
theorem C8_witness :
    dbMismatch.lootsplit_recipients.filter
      (fun p => p.fst == lsMismatch.id) ≠ [] ∧
    lootsplit_row_recipient_ids dbMismatch lsMismatch = "3,4" ∧
    dbLegacy.lootsplit_recipients.filter (fun p => p.fst == (1 : Int)) = [] ∧
    lootsplit_row_recipient_ids dbLegacy
      ⟨1, 0, 9, none, 100, 10, 10, 90, 45, 2, "1,2", "T"⟩ = "1,2" := by
  have h1 := C8_recipient_source.1 dbMismatch lsMismatch (by decide)
  have h2 := C8_recipient_source.2.1 dbLegacy
    ⟨1, 0, 9, none, 100, 10, 10, 90, 45, 2, "1,2", "T"⟩ (by decide)
  refine ⟨by decide, ?_, by decide, ?_⟩
  · rw [h1]; decide
  · rw [h2]

/-! ### Lemmas for C6 -/

theorem get_treasury_add (db : DB) (g a : Int) :
    get_treasury (add_treasury db g a) g = get_treasury db g + a := by
  unfold add_treasury get_treasury
  cases h : db.treasury g <;> simp [h]

theorem log_lootsplit_accounts (db : DB) (g i : Int) (nm : Option String)
    (t tp ta re sh rc : Int) (rids now : String) :
    (log_lootsplit db g i nm t tp ta re sh rc rids now).accounts =
      db.accounts := by
  simp only [log_lootsplit]
  by_cases h : rids ≠ ""
  · rw [if_pos h]
  · rw [if_neg h]

theorem log_lootsplit_treasury (db : DB) (g i : Int) (nm : Option String)
    (t tp ta re sh rc : Int) (rids now : String) :
    (log_lootsplit db g i nm t tp ta re sh rc rids now).treasury =
      db.treasury := by
  simp only [log_lootsplit]
  by_cases h : rids ≠ ""
  · rw [if_pos h]
  · rw [if_neg h]

theorem credit_shares_step (db : DB) (g m share : Int)
    (hw : 0 ≤ get_wallet db g m) (hs : 0 ≤ share) :
    get_wallet (add_balance (ensure_account db g m) g m share).2 g m =
      get_wallet db g m + share ∧
    (∀ k : Int × Int, k ≠ (g, m) →
      (add_balance (ensure_account db g m) g m share).2.accounts k =
        db.accounts k) ∧
    SameExceptAccounts (add_balance (ensure_account db g m) g m share).2 db := by
  have he : (ensure_account db g m).accounts (g, m) = some (get_wallet db g m) :=
    ensure_account_some db g m
  have hcur : get_wallet (ensure_account db g m) g m = get_wallet db g m :=
    get_wallet_ensure_self db g m
  have hsnd : (add_balance (ensure_account db g m) g m share).2 =
      update_wallet (ensure_account db g m) g m
        (fun _ => get_wallet db g m + share) := by
    simp only [add_balance]
    rw [hcur, if_neg (by omega : ¬ (get_wallet db g m + share < 0))]
  refine ⟨?_, ?_, ?_⟩
  · rw [hsnd]
    unfold get_wallet
    rw [update_wallet_accounts_self _ g m _ _ he]
    simp
  · intro k hk
    rw [hsnd, update_wallet_accounts_other _ g m _ k hk,
      ensure_account_accounts_other db g m k hk]
  · rw [hsnd]
    exact sea_trans _ _ _ (update_wallet_sea _ g m _) (ensure_account_sea db g m)

theorem credit_shares_spec (g share : Int) (hs : 0 ≤ share) :
    ∀ (recipients : List Int) (db : DB), recipients.Nodup →
      (∀ r ∈ recipients, 0 ≤ get_wallet db g r) →
      (∀ r ∈ recipients,
        get_wallet (credit_shares g share recipients db) g r =
          get_wallet db g r + share) ∧
      (∀ k : Int × Int, (∀ x ∈ recipients, k ≠ (g, x)) →
        (credit_shares g share recipients db).accounts k = db.accounts k) ∧
      SameExceptAccounts (credit_shares g share recipients db) db := by
  intro recipients
  induction recipients with
  | nil =>
      intro db _ _
      refine ⟨by simp, ?_, sea_refl db⟩
      intro k _
      rfl
  | cons m rest ih =>
      intro db hnd hw
      rw [List.nodup_cons] at hnd
      obtain ⟨hm, hndr⟩ := hnd
      have hwm : 0 ≤ get_wallet db g m := hw m (List.mem_cons_self m rest)
      obtain ⟨s1, s2, s3⟩ := credit_shares_step db g m share hwm hs
      have hcons : credit_shares g share (m :: rest) db =
          credit_shares g share rest
            ((add_balance (ensure_account db g m) g m share).2) := rfl
      have hw1 : ∀ r ∈ rest, 0 ≤ get_wallet
          ((add_balance (ensure_account db g m) g m share).2) g r := by
        intro r hr
        have hne : ((g, r) : Int × Int) ≠ (g, m) := by
          intro hh
          have h2 := congrArg Prod.snd hh
          simp only at h2
          exact hm (by rw [← h2]; exact hr)
        unfold get_wallet
        rw [s2 (g, r) hne]
        exact hw r (List.mem_cons_of_mem m hr)
      obtain ⟨i1, i2, i3⟩ :=
        ih ((add_balance (ensure_account db g m) g m share).2) hndr hw1
      refine ⟨?_, ?_, ?_⟩
      · intro r hr
        rw [hcons]
        rcases List.mem_cons.mp hr with rfl | hr2
        · have hk : ∀ x ∈ rest, ((g, r) : Int × Int) ≠ (g, x) := by
            intro x hx hh
            have h2 := congrArg Prod.snd hh
            simp only at h2
            exact hm (by rw [h2]; exact hx)
          have hu := i2 (g, r) hk
          unfold get_wallet
          rw [hu]
          exact s1
        · have hne : ((g, r) : Int × Int) ≠ (g, m) := by
            intro hh
            have h2 := congrArg Prod.snd hh
            simp only at h2
            exact hm (by rw [← h2]; exact hr2)
          have hsame : get_wallet
              ((add_balance (ensure_account db g m) g m share).2) g r =
              get_wallet db g r := by
            unfold get_wallet
            rw [s2 (g, r) hne]
          rw [i1 r hr2, hsame]
      · intro k hk
        rw [hcons, i2 k (fun x hx => hk x (List.mem_cons_of_mem m hx)),
          s2 k (hk m (List.mem_cons_self m rest))]
      · rw [hcons]
        exact sea_trans _ _ _ i3 s3

/-! ### C6 -/

/-- C6: applying a loot split credits each of the (distinct) recipients'
wallets by exactly `share`, changes no other wallet, increases the
treasury by exactly `tax_amount`, and the integer-division remainder
`remaining - share * recipientCount` (between 0 and recipientCount - 1
when share = remaining // recipientCount) is credited to no recipient
and not to the treasury. -/
theorem C6_lootsplit_application (db : DB) (g initiator : Int)
    (name : Option String) (total tax tax_amount remaining share : Int)
    (recipients : List Int) (now : String)
    (hnd : recipients.Nodup) (hshare : 0 < share) (htax : 0 ≤ tax_amount)
    (hw : ∀ r ∈ recipients, 0 ≤ get_wallet db g r) :
    (∀ r ∈ recipients,
      get_wallet (lootsplit_confirm db g initiator name total tax tax_amount
          remaining share recipients now) g r = get_wallet db g r + share) ∧
    (∀ g' u : Int, (g' = g → u ∉ recipients) →
      get_wallet (lootsplit_confirm db g initiator name total tax tax_amount
          remaining share recipients now) g' u = get_wallet db g' u) ∧
    get_treasury (lootsplit_confirm db g initiator name total tax tax_amount
        remaining share recipients now) g = get_treasury db g + tax_amount ∧
    (share = remaining.fdiv (recipients.length : Int) → 0 ≤ remaining →
      0 < (recipients.length : Int) →
      0 ≤ remaining - share * (recipients.length : Int) ∧
      remaining - share * (recipients.length : Int) <
        (recipients.length : Int)) := by
  obtain ⟨f1, f2, f3⟩ :=
    credit_shares_spec g share (le_of_lt hshare) recipients db hnd hw
  have hacc : (lootsplit_confirm db g initiator name total tax tax_amount
      remaining share recipients now).accounts =
      (credit_shares g share recipients db).accounts := by
    simp only [lootsplit_confirm]
    rw [log_lootsplit_accounts]
    by_cases ht : tax_amount > 0
    · rw [if_pos ht, add_treasury_accounts]
    · rw [if_neg ht]
  have htreas : (lootsplit_confirm db g initiator name total tax tax_amount
      remaining share recipients now).treasury =
      (if tax_amount > 0 then
        add_treasury (credit_shares g share recipients db) g tax_amount
      else credit_shares g share recipients db).treasury := by
    simp only [lootsplit_confirm]
    rw [log_lootsplit_treasury]
  refine ⟨?_, ?_, ?_, ?_⟩
  · intro r hr
    unfold get_wallet
    rw [hacc]
    exact f1 r hr
  · intro g' u hgu
    have hk : ∀ x ∈ recipients, ((g', u) : Int × Int) ≠ (g, x) := by
      intro x hx hh
      have h1 := congrArg Prod.fst hh
      have h2 := congrArg Prod.snd hh
      simp only at h1 h2
      exact (hgu h1) (by rw [h2]; exact hx)
    unfold get_wallet
    rw [hacc, f2 (g', u) hk]
  · unfold get_treasury
    rw [htreas]
    by_cases ht : tax_amount > 0
    · rw [if_pos ht]
      have hadd := get_treasury_add (credit_shares g share recipients db) g
        tax_amount
      unfold get_treasury at hadd
      rw [hadd, f3.1]
    · rw [if_neg ht]
      have hz : tax_amount = 0 := by omega
      rw [f3.1, hz, add_zero]
  · intro hsd hrem hlen
    rw [hsd, Int.fdiv_eq_ediv _ (by omega)]
    have h1 := Int.emod_nonneg remaining
      (by omega : (recipients.length : Int) ≠ 0)
    have h2 := Int.emod_lt_of_pos remaining hlen
    have h3 := Int.ediv_add_emod remaining (recipients.length : Int)
    have h4 : (recipients.length : Int) *
        (remaining / (recipients.length : Int)) =
        remaining / (recipients.length : Int) * (recipients.length : Int) :=
      mul_comm _ _
    constructor <;> omega

/-- Witness for C6: the 1000/100/10%/3-recipient split of the spec's own
worked example applied at the empty state — each recipient ends at 270,
an untouched user stays at 0, the treasury ends at 90. -/
theorem C6_witness :
    ([1, 2, 3] : List Int).Nodup ∧ (0 : Int) < 270 ∧ (0 : Int) ≤ 90 ∧
    (∀ r ∈ ([1, 2, 3] : List Int), 0 ≤ get_wallet dbEmpty 0 r) ∧
    get_wallet (lootsplit_confirm dbEmpty 0 9 none 1000 10 90 810 270
      [1, 2, 3] "T") 0 1 = 270 ∧
    get_wallet (lootsplit_confirm dbEmpty 0 9 none 1000 10 90 810 270
      [1, 2, 3] "T") 0 7 = 0 ∧
    get_treasury (lootsplit_confirm dbEmpty 0 9 none 1000 10 90 810 270
      [1, 2, 3] "T") 0 = 90 := by
  have h := C6_lootsplit_application dbEmpty 0 9 none 1000 10 90 810 270
    [1, 2, 3] "T" (by decide) (by decide) (by decide) (by decide)
  refine ⟨by decide, by decide, by decide, by decide, ?_, ?_, ?_⟩
  · rw [h.1 1 (by decide)]
    decide
  · rw [h.2.1 0 7 (by decide)]
    decide
  · rw [h.2.2.1]
    decide

